import Mathlib

/-!
Shallow embedding of the portfolio_server dynamic-data tagging/search module
(`app/crud/data.py`, `app/models/data.py`, `app/schemas/data.py`) and of the
design-system registry (`app/crud/design.py`, `app/models/design.py`,
`app/schemas/design.py`, `app/api/routes/design.py`).

The relational store is modelled as explicit lists of rows; SQLAlchemy's
`query(...).first()` becomes `List.find?` (first matching row), autoincrement
primary keys become an explicit `next id` counter, and the request-scoped
session of `app/core/database.py` (`get_db`: yield, then `close()`, which
rolls back anything uncommitted) is modelled, where it matters, as a pair of
a committed store and a pending store.

Pydantic `exclude_unset` partial updates are modelled with an explicit
`PatchField` marker.  Payload fields that the schemas declare as non-null
(title/content/tag list, design-system name and sections) are modelled with
their non-null payload type; sending an explicit JSON `null` for those fields
makes the Python handlers crash or store a NULL, paths no claim is about.
-/

/-- Opaque stand-in for an arbitrary JSON document (`Dict[str, Any]` content
column).  The code only ever stores and returns these values whole, so any
type with decidable equality is a faithful model. -/
abbrev JsonDoc := List (String × String)

/-- Row of the `tags` table (`app/models/data.py`, class `Tag`). -/
structure Tag where
  id : Nat
  name : String
deriving DecidableEq

/-- Row of the `dynamic_data` table together with its `data_tags` association
rows (`app/models/data.py`, class `DynamicData`): `tagIds` is the ordered list
of `tag_id` values of the association rows of this item; duplicates in the
list are duplicate association rows. -/
structure DataItem where
  id : Nat
  title : String
  description : Option String
  content : JsonDoc
  tagIds : List Nat
deriving DecidableEq

/-- The relational store backing the data module: the two tables plus the
autoincrement counters of their integer primary keys. -/
structure DataStore where
  tags : List Tag
  items : List DataItem
  nextTagId : Nat
  nextItemId : Nat
deriving DecidableEq

def emptyDataStore : DataStore := ⟨[], [], 0, 0⟩

/-- `get_tag_by_name` (`app/crud/data.py`): `filter(Tag.name == name).first()`. -/
def get_tag_by_name (db : DataStore) (name : String) : Option Tag :=
  db.tags.find? (fun t => t.name == name)

/-- `create_tag` (`app/crud/data.py`): insert a new row and commit. -/
def create_tag (db : DataStore) (name : String) : Tag × DataStore :=
  let t : Tag := ⟨db.nextTagId, name⟩
  (t, { db with tags := db.tags ++ [t], nextTagId := db.nextTagId + 1 })

/-- `get_or_create_tag` (`app/crud/data.py`). -/
def get_or_create_tag (db : DataStore) (name : String) : Tag × DataStore :=
  match get_tag_by_name db name with
  | some t => (t, db)
  | none => create_tag db name

/-- The tag-resolution loop of `create_data_item` / `update_data_item`:
`for tag_name in names: tag = get_or_create_tag(db, tag_name); tags.append(tag)` —
one association per occurrence, in order. -/
def resolveTags (db : DataStore) (names : List String) : List Nat × DataStore :=
  match names with
  | [] => ([], db)
  | n :: rest =>
    let (t, db1) := get_or_create_tag db n
    let (ids, db2) := resolveTags db1 rest
    (t.id :: ids, db2)

/-- `get_data_item` (`app/crud/data.py`): `filter(DynamicData.id == data_id).first()`. -/
def get_data_item (db : DataStore) (dataId : Nat) : Option DataItem :=
  db.items.find? (fun it => it.id == dataId)

/-- Creation payload `DynamicDataCreate` (`app/schemas/data.py`): `tags`
defaults to the empty list when absent. -/
structure DynamicDataCreate where
  title : String
  description : Option String
  content : JsonDoc
  tags : List String
deriving DecidableEq

/-- `create_data_item` (`app/crud/data.py`): build the row, append one tag per
name in the list via `get_or_create_tag`, then add and commit. -/
def create_data_item (db : DataStore) (p : DynamicDataCreate) : DataItem × DataStore :=
  let (ids, db1) := resolveTags db p.tags
  let item : DataItem := ⟨db1.nextItemId, p.title, p.description, p.content, ids⟩
  (item, { db1 with items := db1.items ++ [item], nextItemId := db1.nextItemId + 1 })

/-- Marker for a pydantic field of a partial-update schema under
`dict(exclude_unset=True)`: `unset` fields do not appear in the dict. -/
inductive PatchField (α : Type)
  | unset
  | given (v : α)
deriving DecidableEq

def PatchField.isGiven {α : Type} : PatchField α → Bool
  | .unset => false
  | .given _ => true

/-- Partial-update payload `DynamicDataUpdate` (`app/schemas/data.py`). -/
structure DynamicDataUpdate where
  title : PatchField String
  description : PatchField (Option String)
  content : PatchField JsonDoc
  tags : PatchField (List String)
deriving DecidableEq

/-- Replace the first element satisfying `p` by its image under `f`, the rest
untouched — the effect of mutating the single ORM object returned by
`.first()` and committing. -/
def updateFirst {α : Type} (p : α → Bool) (f : α → α) : List α → List α
  | [] => []
  | x :: xs => if p x then f x :: xs else x :: updateFirst p f xs

/-- The basic-field loop of `update_data_item`:
`for key in ["title", "description", "content"]: if key in update_data:
setattr(...)`. -/
def applyBasicFields (it0 : DataItem) (u : DynamicDataUpdate) : DataItem :=
  let it1 := match u.title with | .given v => { it0 with title := v } | .unset => it0
  let it2 := match u.description with | .given v => { it1 with description := v } | .unset => it1
  match u.content with | .given v => { it2 with content := v } | .unset => it2

/-- `update_data_item` (`app/crud/data.py`): apply exactly the fields present
in the partial update; when `tags` is present, clear the association list and
re-add one tag per given name via `get_or_create_tag`; commit. -/
def update_data_item (db : DataStore) (dataId : Nat) (u : DynamicDataUpdate) :
    Option DataItem × DataStore :=
  match get_data_item db dataId with
  | none => (none, db)
  | some it0 =>
    let it3 := applyBasicFields it0 u
    match u.tags with
    | .unset =>
      (some it3, { db with items := updateFirst (fun x => x.id == dataId) (fun _ => it3) db.items })
    | .given names =>
      let (ids, db1) := resolveTags db names
      let it4 := { it3 with tagIds := ids }
      (some it4, { db1 with items := updateFirst (fun x => x.id == dataId) (fun _ => it4) db1.items })

/-- Shape of the paginated response dict of `get_data_items` /
`search_data_items`. -/
structure Page where
  data : List DataItem
  total : Nat
  page : Nat
  page_size : Nat
  total_pages : Nat
deriving DecidableEq

/-- Whether association row `tid` of an item joins to a tag named `t`
(`join(DynamicData.tags).filter(Tag.name == tag)`). -/
def assocMatches (db : DataStore) (t : String) (tid : Nat) : Bool :=
  match db.tags.find? (fun tg => tg.id == tid) with
  | some tg => tg.name == t
  | none => false

/-- The row set produced by the tag-filter join of `get_data_items`: one
output row per matching association row, so an item associated with the tag
more than once appears more than once. -/
def tagFilterRows (db : DataStore) (t : String) : List DataItem :=
  db.items.flatMap (fun it => ((it.tagIds.filter (assocMatches db t)).map (fun _ => it)))

/-- `get_data_items` (`app/crud/data.py`): optional tag filter (skipped for
`None` and for the falsy empty string), `total = query.count()` before
pagination, then `offset(skip).limit(limit)`, and the page arithmetic
`page = skip // limit + 1 if limit else 1`,
`total_pages = (total + limit - 1) // limit if limit else 1`. -/
def get_data_items (db : DataStore) (skip limit : Nat) (tag : Option String) : Page :=
  let rows := match tag with
    | some t => if t = "" then db.items else tagFilterRows db t
    | none => db.items
  let total := rows.length
  let items := (rows.drop skip).take limit
  let page := if limit ≠ 0 then skip / limit + 1 else 1
  let total_pages := if limit ≠ 0 then (total + limit - 1) / limit else 1
  ⟨items, total, page, limit, total_pages⟩

/-- ASCII lowercasing as performed by SQL `lower()` on each character
(codes 65–90 shift to 97–122, everything else is unchanged). -/
def lowerChar (c : Char) : Char :=
  if 65 ≤ c.toNat ∧ c.toNat ≤ 90 then Char.ofNat (c.toNat + 32) else c

def lowerL (s : List Char) : List Char := s.map lowerChar

/-- SQL `LIKE` pattern matching: `%` matches any (possibly empty) sequence,
`_` matches exactly one character, anything else matches itself; the pattern
must cover the whole string. -/
def likeMatch : List Char → List Char → Bool
  | [], [] => true
  | [], _ :: _ => false
  | p :: ps, [] => if p = '%' then likeMatch ps [] else false
  | p :: ps, c :: s =>
    if p = '%' then likeMatch ps (c :: s) || likeMatch (p :: ps) s
    else (if p = '_' then true else p == c) && likeMatch ps s
termination_by p s => (s.length, p.length)

/-- The search filter of `search_data_items`:
`lower(title) LIKE lower('%'+query+'%') OR lower(description) LIKE ...`;
a NULL description makes its disjunct SQL-NULL, so such an item can only
match via its title. -/
def searchMatch (q : String) (it : DataItem) : Bool :=
  let pat := lowerL ('%' :: (q.data ++ ['%']))
  likeMatch pat (lowerL it.title.data) ||
    (match it.description with
     | some d => likeMatch pat (lowerL d.data)
     | none => false)

/-- `search_data_items` (`app/crud/data.py`): filter, `total = count()` before
pagination, `offset(skip).limit(limit)`, same page arithmetic as
`get_data_items`. -/
def search_data_items (db : DataStore) (q : String) (skip limit : Nat) : Page :=
  let rows := db.items.filter (searchMatch q)
  let total := rows.length
  let items := (rows.drop skip).take limit
  let page := if limit ≠ 0 then skip / limit + 1 else 1
  let total_pages := if limit ≠ 0 then (total + limit - 1) / limit else 1
  ⟨items, total, page, limit, total_pages⟩

/-- Name of the tag row an association row points at. -/
def tagNameOf (db : DataStore) (tid : Nat) : Option String :=
  (db.tags.find? (fun t => t.id == tid)).map (fun t => t.name)

/-- Well-formedness of the tag table, maintained by every operation of the
module: primary keys are below the autoincrement counter and are distinct. -/
def TagStoreWF (db : DataStore) : Prop :=
  (∀ t ∈ db.tags, t.id < db.nextTagId) ∧ (db.tags.map Tag.id).Nodup

instance (db : DataStore) : Decidable (TagStoreWF db) := by
  unfold TagStoreWF; infer_instance

/-- Specification-side count of the items matching a tag filter (each
matching item counted once, however many matching association rows it has). -/
def matchingItemCount (db : DataStore) (t : String) : Nat :=
  (db.items.filter (fun it => it.tagIds.any (assocMatches db t))).length

/-- Specification-side: `q` occurs at the start of `s` (all characters
literal). -/
def litStarts : List Char → List Char → Bool
  | [], _ => true
  | _ :: _, [] => false
  | a :: as, b :: bs => a == b && litStarts as bs

/-- Specification-side: `q` occurs contiguously somewhere in `s`. -/
def isSubstr (q s : List Char) : Bool :=
  litStarts q s ||
    (match s with
     | [] => false
     | _ :: s1 => isSubstr q s1)

/-! ## Design-system registry -/

/-- `ColorScheme` (`app/schemas/design.py`): nine required hex-string fields. -/
structure ColorScheme where
  primary : String
  secondary : String
  accent : String
  background : String
  text : String
  error : String
  success : String
  warning : String
  info : String
deriving DecidableEq

/-- `DarkModeColors` (`app/schemas/design.py`). -/
structure DarkModeColors where
  background : String
  text : String
  primary : String
deriving DecidableEq

/-- `Typography` (`app/schemas/design.py`); `scale_ratio` is a numeric value
that is only ever stored and copied, modelled as a rational. -/
structure Typography where
  font_family : String
  heading_font : String
  base_size : String
  scale_ratio : Rat
deriving DecidableEq

/-- `Spacing` (`app/schemas/design.py`). -/
structure Spacing where
  base_unit : String
  scale_ratio : Rat
deriving DecidableEq

/-- `BorderRadius` (`app/schemas/design.py`). -/
structure BorderRadius where
  small : String
  medium : String
  large : String
  round : String
deriving DecidableEq

/-- Value stored under one key of the JSON `config` column: the `.dict()`
rendering of one section model. -/
inductive SectionVal
  | colors (c : ColorScheme)
  | dark_mode (d : DarkModeColors)
  | typography (t : Typography)
  | spacing (s : Spacing)
  | border_radius (b : BorderRadius)
deriving DecidableEq

/-- The JSON `config` column: an ordered key/value document (Python dict). -/
abbrev Config := List (String × SectionVal)

def configKeys (c : Config) : List String := c.map Prod.fst

/-- The five section keys handled by `update_design_system`, in the order the
code lists them. -/
def sectionKeys : List String :=
  ["colors", "dark_mode", "typography", "spacing", "border_radius"]

/-- Python dict assignment `cfg[k] = v`: replace in place when the key is
present, otherwise append. -/
def assocSet (cfg : Config) (k : String) (v : SectionVal) : Config :=
  if cfg.any (fun p => p.1 == k) then
    cfg.map (fun p => if p.1 == k then (k, v) else p)
  else cfg ++ [(k, v)]

/-- Creation payload `DesignSystemCreate` (`app/schemas/design.py`): a name
plus the five required sections. -/
structure DesignSystemCreate where
  name : String
  colors : ColorScheme
  dark_mode : DarkModeColors
  typography : Typography
  spacing : Spacing
  border_radius : BorderRadius
deriving DecidableEq

/-- `design_system.dict(exclude={"name"})`: the payload as a dict in field
order, minus the name. -/
def DesignSystemCreate.configDict (p : DesignSystemCreate) : Config :=
  [("colors", .colors p.colors),
   ("dark_mode", .dark_mode p.dark_mode),
   ("typography", .typography p.typography),
   ("spacing", .spacing p.spacing),
   ("border_radius", .border_radius p.border_radius)]

/-- Partial-update payload `DesignSystemUpdate` (`app/schemas/design.py`),
under `dict(exclude_unset=True)`. -/
structure DesignSystemUpdate where
  name : PatchField String
  colors : PatchField ColorScheme
  dark_mode : PatchField DarkModeColors
  typography : PatchField Typography
  spacing : PatchField Spacing
  border_radius : PatchField BorderRadius
deriving DecidableEq

/-- The all-unset partial update. -/
def DesignSystemUpdate.empty : DesignSystemUpdate :=
  ⟨.unset, .unset, .unset, .unset, .unset, .unset⟩

/-- Row of the `design_systems` table (`app/models/design.py`).  The
`is_active` column has storage-level default `True`, applied on insert. -/
structure DesignSystem where
  id : Nat
  name : String
  config : Config
  is_active : Bool
deriving DecidableEq

/-- The design-system table plus its autoincrement counter. -/
structure DStore where
  rows : List DesignSystem
  nextId : Nat
deriving DecidableEq

def emptyDStore : DStore := ⟨[], 0⟩

/-- `get_design_system` (`app/crud/design.py`): `filter(id == design_id).first()`. -/
def get_design_system (db : DStore) (designId : Nat) : Option DesignSystem :=
  db.rows.find? (fun r => r.id == designId)

/-- `get_active_design_system` (`app/crud/design.py`):
`filter(is_active == True).first()`. -/
def get_active_design_system (db : DStore) : Option DesignSystem :=
  db.rows.find? (fun r => r.is_active)

def activeRows (db : DStore) : List DesignSystem :=
  db.rows.filter (fun r => r.is_active)

def countActive (db : DStore) : Nat := (activeRows db).length

/-- `create_design_system` (`app/crud/design.py`): insert
`DesignSystem(name=..., config=dict minus name)` and commit; `is_active` is
not set by the code, so the column default `True` applies. -/
def create_design_system (db : DStore) (p : DesignSystemCreate) : DesignSystem × DStore :=
  let row : DesignSystem := ⟨db.nextId, p.name, p.configDict, true⟩
  (row, { rows := db.rows ++ [row], nextId := db.nextId + 1 })

/-- The config-section merge loop of `update_design_system`: for each of the
five keys in order, if present in the partial update, `config[key] = value`. -/
def applySections (cfg : Config) (u : DesignSystemUpdate) : Config :=
  let cfg := match u.colors with | .given v => assocSet cfg "colors" (.colors v) | .unset => cfg
  let cfg := match u.dark_mode with | .given v => assocSet cfg "dark_mode" (.dark_mode v) | .unset => cfg
  let cfg := match u.typography with | .given v => assocSet cfg "typography" (.typography v) | .unset => cfg
  let cfg := match u.spacing with | .given v => assocSet cfg "spacing" (.spacing v) | .unset => cfg
  match u.border_radius with | .given v => assocSet cfg "border_radius" (.border_radius v) | .unset => cfg

/-- Whether any of the five config sections is present in the partial update
(the `if any(key in update_data for key in [...])` guard). -/
def sectionGiven (u : DesignSystemUpdate) : Bool :=
  u.colors.isGiven || u.dark_mode.isGiven || u.typography.isGiven ||
    u.spacing.isGiven || u.border_radius.isGiven

/-- The row mutation performed by `update_design_system` on the found row:
rebuild `config` from a copy with the given sections assigned (guarded by the
`any(...)` check), then update the name if given. -/
def applyDesignUpdate (r0 : DesignSystem) (u : DesignSystemUpdate) : DesignSystem :=
  let r1 := if sectionGiven u then { r0 with config := applySections r0.config u } else r0
  match u.name with | .given n => { r1 with name := n } | .unset => r1

/-- `update_design_system` (`app/crud/design.py`): mutate the found row as
above and commit; not-found returns `None` with nothing touched. -/
def update_design_system (db : DStore) (designId : Nat) (u : DesignSystemUpdate) :
    Option DesignSystem × DStore :=
  match get_design_system db designId with
  | none => (none, db)
  | some r0 =>
    let r2 := applyDesignUpdate r0 u
    (some r2, { db with rows := updateFirst (fun x => x.id == designId) (fun _ => r2) db.rows })

/-- A request-scoped session (`app/core/database.py`, `get_db`): `committed`
is the database state, `pending` the state as seen inside the open
transaction.  `commit` publishes the pending state; closing the session
without a commit discards it (rollback). -/
structure DSession where
  committed : DStore
  pending : DStore
deriving DecidableEq

def commitSess (s : DSession) : DSession := ⟨s.pending, s.pending⟩

/-- `db.close()` at the end of the request: whatever was not committed is
rolled back, and the database keeps the committed state. -/
def closeSess (s : DSession) : DStore := s.committed

def DesignSystem.deactivate (r : DesignSystem) : DesignSystem := { r with is_active := false }

/-- `set_active_design_system` (`app/crud/design.py`): first a bulk
`UPDATE design_systems SET is_active = false` on every row (executed
immediately inside the open transaction), then look the target up by id; if
absent, return `None` *without committing*; otherwise activate the found row
and commit. -/
def set_active_design_system (s : DSession) (designId : Nat) :
    Option DesignSystem × DSession :=
  let pend := { s.pending with rows := s.pending.rows.map DesignSystem.deactivate }
  let s1 : DSession := { s with pending := pend }
  match pend.rows.find? (fun r => r.id == designId) with
  | none => (none, s1)
  | some r =>
    let r1 := { r with is_active := true }
    let rows2 := updateFirst (fun x => x.id == designId)
      (fun x => { x with is_active := true }) pend.rows
    let s2 := commitSess { s1 with pending := { pend with rows := rows2 } }
    (some r1, s2)

/-- `POST /{design_id}/activate` at the database level: run the crud function
in a fresh request session, then close it (rolling back anything
uncommitted). -/
def set_active_request (db : DStore) (designId : Nat) : Option DesignSystem × DStore :=
  let (r, s) := set_active_design_system ⟨db, db⟩ designId
  (r, closeSess s)

/-- `delete_design_system` (`app/crud/design.py`): `False` when not found or
when the found row is active, with nothing touched; otherwise delete the row
and commit. -/
def delete_design_system (db : DStore) (designId : Nat) : Bool × DStore :=
  match get_design_system db designId with
  | none => (false, db)
  | some r =>
    if r.is_active then (false, db)
    else (true, { db with rows := db.rows.eraseP (fun x => x.id == designId) })

/-- `settings.DEFAULT_DESIGN_SYSTEM["colors"]` (`app/core/config.py`): the
process-wide static default color scheme. -/
def DEFAULT_COLORS : ColorScheme :=
  ⟨"#8B5CF6", "#D946EF", "#F97316", "#FFFFFF", "#222222",
   "#EA384C", "#10B981", "#F59E0B", "#0EA5E9"⟩

def configGet (cfg : Config) (k : String) : Option SectionVal :=
  (cfg.find? (fun p => p.1 == k)).map Prod.snd

/-- `GET /color-scheme` (`app/api/routes/design.py`): the colors section of
the active design system, or the static default when none is active
(`none` would be a `KeyError`, impossible on stores built by the module). -/
def get_color_scheme (db : DStore) : Option SectionVal :=
  match get_active_design_system db with
  | none => some (.colors DEFAULT_COLORS)
  | some ds => configGet ds.config "colors"

/-- `PUT /color-scheme` (`app/api/routes/design.py`).  The handler builds a
copy of the active config with its colors replaced, but passes it as
`DesignSystemUpdate(config=config)`; the schema has no `config` field and
pydantic ignores unknown keyword arguments, so the constructed partial update
has every field unset.  Result: `none` models the 404 when no theme is
active; otherwise the colors section of the row returned by
`update_design_system`. -/
def update_color_scheme (db : DStore) (newColors : ColorScheme) :
    Option (Option SectionVal) × DStore :=
  match get_active_design_system db with
  | none => (none, db)
  | some ds =>
    let upd := DesignSystemUpdate.empty
    match update_design_system db ds.id upd with
    | (some updated, db1) => (some (configGet updated.config "colors"), db1)
    | (none, db1) => (none, db1)

/-- One registry operation, as reachable through the API routes. -/
inductive DOp
  | createOp (p : DesignSystemCreate)
  | updateOp (designId : Nat) (u : DesignSystemUpdate)
  | setActiveOp (designId : Nat)
  | deleteOp (designId : Nat)
deriving DecidableEq

def DOp.isCreate : DOp → Bool
  | .createOp _ => true
  | _ => false

/-- Database-level effect of one operation (each runs in its own request
session; the store carried between operations is the committed state). -/
def applyDOp (db : DStore) (op : DOp) : DStore :=
  match op with
  | .createOp p => (create_design_system db p).2
  | .updateOp i u => (update_design_system db i u).2
  | .setActiveOp i => (set_active_request db i).2
  | .deleteOp i => (delete_design_system db i).2

def runDOps (db : DStore) (ops : List DOp) : DStore := ops.foldl applyDOp db

/-- The procedural single-active-theme invariant. -/
def atMostOneActive (db : DStore) : Prop := countActive db ≤ 1

instance (db : DStore) : Decidable (atMostOneActive db) := by
  unfold atMostOneActive; infer_instance

/-- Specification-side: `tp` is the ceiling of `total / limit`, characterised
as the least number of pages covering `total` rows. -/
def ceilBound (tp total limit : Nat) : Prop :=
  total ≤ limit * tp ∧ ∀ m, total ≤ limit * m → tp ≤ m

/-! ## Concrete fixtures used by counterexamples and witnesses -/

def sampleDark : DarkModeColors := ⟨"#000000", "#FFFFFF", "#FF0000"⟩

def sampleTypography : Typography :=
  ⟨"Inter, sans-serif", "Inter, sans-serif", "16px", mkRat 5 4⟩

def sampleSpacing : Spacing := ⟨"4px", mkRat 2 1⟩

def sampleRadius : BorderRadius := ⟨"4px", "8px", "16px", "50%"⟩

def altColors : ColorScheme := { DEFAULT_COLORS with primary := "#FF0000" }

def samplePayload (nm : String) (cs : ColorScheme) : DesignSystemCreate :=
  ⟨nm, cs, sampleDark, sampleTypography, sampleSpacing, sampleRadius⟩

/-- Two design systems created from an empty store, nothing ever activated
explicitly. -/
def storeTwoCreates : DStore :=
  runDOps emptyDStore
    [.createOp (samplePayload "Theme A" DEFAULT_COLORS),
     .createOp (samplePayload "Theme B" altColors)]

/-- Same, then `set_active(0)`: row 0 active, row 1 inactive. -/
def storeOneActive : DStore := runDOps storeTwoCreates [.setActiveOp 0]

/-- A single created design system (active by column default). -/
def storeOneTheme : DStore :=
  runDOps emptyDStore [.createOp (samplePayload "Theme A" DEFAULT_COLORS)]

/-- The row created first in `storeTwoCreates` / `storeOneTheme`. -/
def sampleRowA : DesignSystem :=
  ⟨0, "Theme A", (samplePayload "Theme A" DEFAULT_COLORS).configDict, true⟩

/-- The row created second in `storeTwoCreates`. -/
def sampleRowB : DesignSystem :=
  ⟨1, "Theme B", (samplePayload "Theme B" altColors).configDict, true⟩

/-- The second row after `set_active(0)` deactivated it. -/
def sampleRowBInactive : DesignSystem := { sampleRowB with is_active := false }

/-- Creation payload whose tag list repeats one name. -/
def dupTagPayload : DynamicDataCreate := ⟨"Test Data", none, [], ["dup", "dup"]⟩

def dupTagStore : DataStore := (create_data_item emptyDataStore dupTagPayload).2

/-- A stored item whose title contains the wildcard-matching text `abz`. -/
def wildcardItem : DataItem := ⟨0, "abz", none, [], []⟩

def wildcardStore : DataStore := ⟨[], [wildcardItem], 0, 1⟩

def exampleItem : DataItem := ⟨0, "Original", some "d", [], [0]⟩

def exampleDataStore : DataStore :=
  (create_data_item emptyDataStore ⟨"Original", some "d", [], ["orig"]⟩).2

/-- Partial update giving a new title and a replacement tag list, everything
else unset. -/
def exampleUpd : DynamicDataUpdate :=
  ⟨.given "New", .unset, .unset, .given ["updated", "new"]⟩

/-! ## Helper lemmas -/

theorem ceil_le_iff (a b m : Nat) (hb : 0 < b) : (a + b - 1) / b ≤ m ↔ a ≤ b * m := by
  rw [Nat.div_le_iff_le_mul_add_pred hb]
  omega

theorem ceilBound_formula (a b : Nat) (hb : b ≠ 0) : ceilBound ((a + b - 1) / b) a b := by
  have hb' : 0 < b := Nat.pos_of_ne_zero hb
  exact ⟨(ceil_le_iff a b _ hb').mp le_rfl, fun m hm => (ceil_le_iff a b m hb').mpr hm⟩

theorem updateFirst_decomp {α : Type} (p : α → Bool) (f : α → α) {l : List α} {x : α}
    (h : l.find? p = some x) :
    ∃ pre post, l = pre ++ x :: post ∧ updateFirst p f l = pre ++ f x :: post ∧
      ∀ y ∈ pre, p y = false := by
  induction l with
  | nil => simp at h
  | cons a l ih =>
    by_cases ha : p a
    · rw [List.find?_cons_of_pos _ ha] at h
      obtain rfl : a = x := by injection h
      exact ⟨[], l, by simp, by simp [updateFirst, ha], by simp⟩
    · rw [List.find?_cons_of_neg _ ha] at h
      obtain ⟨pre, post, h1, h2, h3⟩ := ih h
      refine ⟨a :: pre, post, by simp [h1], by simp [updateFirst, ha, h2], ?_⟩
      intro y hy
      rcases List.mem_cons.mp hy with rfl | hy
      · exact Bool.eq_false_iff.mpr ha
      · exact h3 y hy

theorem updateFirst_eq_self {α : Type} (p : α → Bool) (f : α → α) {l : List α}
    (h : l.find? p = none) : updateFirst p f l = l := by
  induction l with
  | nil => rfl
  | cons a l ih =>
    rw [List.find?_cons] at h
    cases ha : p a with
    | true => rw [ha] at h; cases h
    | false =>
      rw [ha] at h
      simp only [updateFirst, ha, Bool.false_eq_true, if_false, ih h]

theorem mem_updateFirst {α : Type} {p : α → Bool} {f : α → α} {l : List α} {y : α}
    (h : y ∈ updateFirst p f l) : y ∈ l ∨ ∃ x ∈ l, y = f x := by
  induction l with
  | nil => cases h
  | cons a l ih =>
    by_cases ha : p a
    · simp only [updateFirst, ha, if_true] at h
      rcases List.mem_cons.mp h with rfl | hy
      · exact Or.inr ⟨a, by simp, rfl⟩
      · exact Or.inl (List.mem_cons_of_mem _ hy)
    · simp only [updateFirst, ha, if_false] at h
      rcases List.mem_cons.mp h with rfl | hy
      · exact Or.inl (by simp)
      · rcases ih hy with hy | ⟨x, hx, hfx⟩
        · exact Or.inl (List.mem_cons_of_mem _ hy)
        · exact Or.inr ⟨x, List.mem_cons_of_mem _ hx, hfx⟩

theorem find?_key_of_nodup {α β : Type} [BEq β] [LawfulBEq β] (key : α → β) {l : List α}
    (hn : (l.map key).Nodup) {t : α} (ht : t ∈ l) :
    l.find? (fun x => key x == key t) = some t := by
  induction l with
  | nil => cases ht
  | cons a l ih =>
    simp only [List.map_cons, List.nodup_cons] at hn
    rcases List.mem_cons.mp ht with rfl | htl
    · exact List.find?_cons_of_pos _ (by simp)
    · have hne : (key a == key t) = false := by
        refine beq_eq_false_iff_ne.mpr ?_
        intro hkey
        exact hn.1 (hkey ▸ List.mem_map_of_mem key htl)
      rw [List.find?_cons_of_neg _ (by simp [hne])]
      exact ih hn.2 htl

theorem litStarts_iff (q s : List Char) : litStarts q s = true ↔ ∃ r, s = q ++ r := by
  induction q generalizing s with
  | nil => simp [litStarts]
  | cons c q ih =>
    cases s with
    | nil => simp [litStarts]
    | cons d s =>
      simp only [litStarts, Bool.and_eq_true, beq_iff_eq, ih]
      constructor
      · rintro ⟨rfl, r, rfl⟩
        exact ⟨r, rfl⟩
      · rintro ⟨r, hr⟩
        injection hr with h1 h2
        exact ⟨h1.symm, r, h2⟩

theorem isSubstr_iff (q s : List Char) : isSubstr q s = true ↔ ∃ l r, s = l ++ q ++ r := by
  induction s with
  | nil =>
    rw [isSubstr]
    simp only [Bool.or_eq_true, litStarts_iff]
    constructor
    · rintro (⟨r, hr⟩ | h)
      · exact ⟨[], r, by simpa using hr⟩
      · cases h
    · rintro ⟨l, r, hr⟩
      have h0 : l = [] ∧ q = [] ∧ r = [] := by simpa using hr.symm
      exact Or.inl ⟨[], by simp [h0.2.1]⟩
  | cons c s ih =>
    rw [isSubstr]
    simp only [Bool.or_eq_true, litStarts_iff, ih]
    constructor
    · rintro (⟨r, hr⟩ | ⟨l, r, hr⟩)
      · exact ⟨[], r, by simpa using hr⟩
      · exact ⟨c :: l, r, by simp [hr]⟩
    · rintro ⟨l, r, hr⟩
      cases l with
      | nil => exact Or.inl ⟨r, by simpa using hr⟩
      | cons a l =>
        injection hr with h1 h2
        exact Or.inr ⟨l, r, h2⟩

theorem likeMatch_pct_all (s : List Char) : likeMatch ['%'] s = true := by
  induction s with
  | nil => simp [likeMatch]
  | cons c s ih => simp [likeMatch, ih]

theorem likeMatch_pct (ps : List Char) (s : List Char) :
    likeMatch ('%' :: ps) s = true ↔ ∃ l r, s = l ++ r ∧ likeMatch ps r = true := by
  induction s with
  | nil =>
    rw [show likeMatch ('%' :: ps) [] = likeMatch ps [] from by simp [likeMatch]]
    constructor
    · intro h; exact ⟨[], [], rfl, h⟩
    · rintro ⟨l, r, hlr, h⟩
      have h0 : l = [] ∧ r = [] := by simpa using hlr.symm
      rw [← h0.2]; exact h
  | cons c s ih =>
    rw [show likeMatch ('%' :: ps) (c :: s) = (likeMatch ps (c :: s) || likeMatch ('%' :: ps) s)
      from by simp [likeMatch]]
    simp only [Bool.or_eq_true, ih]
    constructor
    · rintro (h | ⟨l, r, rfl, h⟩)
      · exact ⟨[], c :: s, rfl, h⟩
      · exact ⟨c :: l, r, rfl, h⟩
    · rintro ⟨l, r, hlr, h⟩
      cases l with
      | nil => exact Or.inl (by rw [show c :: s = r from by simpa using hlr]; exact h)
      | cons a l =>
        injection hlr with h1 h2
        exact Or.inr ⟨l, r, h2, h⟩

theorem likeMatch_lit (q : List Char) :
    ∀ (ps s : List Char), (∀ c ∈ q, c ≠ '%' ∧ c ≠ '_') →
      (likeMatch (q ++ ps) s = true ↔ ∃ s2, s = q ++ s2 ∧ likeMatch ps s2 = true) := by
  induction q with
  | nil =>
    intro ps s _
    simp
  | cons c q ih =>
    intro ps s hq
    obtain ⟨hc1, hc2⟩ := hq c (by simp)
    have hq2 : ∀ a ∈ q, a ≠ '%' ∧ a ≠ '_' := fun a ha => hq a (by simp [ha])
    cases s with
    | nil =>
      rw [show likeMatch ((c :: q) ++ ps) [] = false from by simp [likeMatch, hc1]]
      simp
    | cons d s =>
      rw [show likeMatch ((c :: q) ++ ps) (d :: s) = ((c == d) && likeMatch (q ++ ps) s)
        from by simp [likeMatch, hc1, hc2]]
      simp only [Bool.and_eq_true, beq_iff_eq, ih ps s hq2]
      constructor
      · rintro ⟨rfl, s2, rfl, h⟩
        exact ⟨s2, rfl, h⟩
      · rintro ⟨s2, hs, h⟩
        injection hs with h1 h2
        exact ⟨h1.symm, s2, h2, h⟩

theorem likeMatch_substr (q s : List Char) (hq : ∀ c ∈ q, c ≠ '%' ∧ c ≠ '_') :
    likeMatch ('%' :: (q ++ ['%'])) s = true ↔ ∃ l r, s = l ++ q ++ r := by
  rw [likeMatch_pct]
  constructor
  · rintro ⟨l, r0, rfl, h⟩
    obtain ⟨s2, rfl, -⟩ := (likeMatch_lit q ['%'] r0 hq).mp h
    exact ⟨l, s2, by simp⟩
  · rintro ⟨l, r, rfl⟩
    refine ⟨l, q ++ r, by simp, ?_⟩
    exact (likeMatch_lit q ['%'] (q ++ r) hq).mpr ⟨r, rfl, likeMatch_pct_all r⟩

theorem lowerChar_not_wild {c : Char} (h1 : c ≠ '%') (h2 : c ≠ '_') :
    lowerChar c ≠ '%' ∧ lowerChar c ≠ '_' := by
  unfold lowerChar
  split
  · next hr =>
    obtain ⟨ha, hb⟩ := hr
    obtain ⟨n, hn⟩ : ∃ n, c.toNat = n := ⟨_, rfl⟩
    rw [hn] at ha hb ⊢
    interval_cases n <;> exact ⟨by decide, by decide⟩
  · exact ⟨h1, h2⟩

theorem lowerL_not_wild {q : List Char} (hq : ∀ c ∈ q, c ≠ '%' ∧ c ≠ '_') :
    ∀ c ∈ lowerL q, c ≠ '%' ∧ c ≠ '_' := by
  intro c hc
  obtain ⟨a, ha, rfl⟩ := List.mem_map.mp hc
  exact lowerChar_not_wild (hq a ha).1 (hq a ha).2

theorem lowerL_pat (q : List Char) :
    lowerL ('%' :: (q ++ ['%'])) = '%' :: (lowerL q ++ ['%']) := by
  have h : lowerChar '%' = '%' := by decide
  simp [lowerL, h]

theorem get_or_create_tag_facts (db : DataStore) (n : String) (hwf : TagStoreWF db) :
    (get_or_create_tag db n).1.name = n ∧
    (get_or_create_tag db n).1 ∈ (get_or_create_tag db n).2.tags ∧
    TagStoreWF (get_or_create_tag db n).2 ∧
    (∃ suf, (get_or_create_tag db n).2.tags = db.tags ++ suf) ∧
    db.nextTagId ≤ (get_or_create_tag db n).2.nextTagId ∧
    (get_or_create_tag db n).1.id < (get_or_create_tag db n).2.nextTagId ∧
    (get_or_create_tag db n).2.items = db.items := by
  cases hfind : get_tag_by_name db n with
  | some t =>
    simp only [get_or_create_tag, hfind]
    have hmem := List.mem_of_find?_eq_some hfind
    have hname : t.name = n := by simpa [beq_iff_eq] using List.find?_some hfind
    exact ⟨hname, hmem, hwf, ⟨[], by simp⟩, le_rfl, hwf.1 t hmem, by trivial⟩
  | none =>
    simp only [get_or_create_tag, hfind, create_tag]
    refine ⟨by simp, by simp, ⟨?_, ?_⟩, ⟨[⟨db.nextTagId, n⟩], rfl⟩, by omega, by simp, by trivial⟩
    · intro t ht
      rcases List.mem_append.mp ht with ht | ht
      · exact Nat.lt_succ_of_lt (hwf.1 t ht)
      · simp at ht
        simp [ht]
    · rw [List.map_append]
      simp only [List.map_cons, List.map_nil]
      rw [List.nodup_append]
      refine ⟨hwf.2, by simp, ?_⟩
      intro x hx
      have := hwf.1
      simp only [List.mem_map] at hx
      obtain ⟨tg, htg, rfl⟩ := hx
      have hlt := hwf.1 tg htg
      simp
      omega

theorem resolveTags_facts (names : List String) :
    ∀ (db : DataStore), TagStoreWF db →
      TagStoreWF (resolveTags db names).2 ∧
      (∃ suf, (resolveTags db names).2.tags = db.tags ++ suf) ∧
      db.nextTagId ≤ (resolveTags db names).2.nextTagId ∧
      (resolveTags db names).1.length = names.length ∧
      (resolveTags db names).1.map (tagNameOf (resolveTags db names).2) = names.map some ∧
      (resolveTags db names).2.items = db.items := by
  induction names with
  | nil =>
    intro db hwf
    exact ⟨hwf, ⟨[], by simp [resolveTags]⟩, le_rfl, rfl, rfl, rfl⟩
  | cons n rest ih =>
    intro db hwf
    obtain ⟨hname, hmem, hwf1, ⟨suf1, hsuf1⟩, hle1, hid1, hitems1⟩ := get_or_create_tag_facts db n hwf
    obtain ⟨hwf2, ⟨suf2, hsuf2⟩, hle2, hlen, hmap, hitems2⟩ := ih (get_or_create_tag db n).2 hwf1
    have hred : resolveTags db (n :: rest) =
        ((get_or_create_tag db n).1.id :: (resolveTags (get_or_create_tag db n).2 rest).1,
         (resolveTags (get_or_create_tag db n).2 rest).2) := rfl
    rw [hred]
    have hfind2 : (resolveTags (get_or_create_tag db n).2 rest).2.tags.find?
        (fun x => x.id == (get_or_create_tag db n).1.id) = some (get_or_create_tag db n).1 := by
      rw [hsuf2, List.find?_append, find?_key_of_nodup Tag.id hwf1.2 hmem]
      rfl
    refine ⟨hwf2, ⟨suf1 ++ suf2, by rw [hsuf2, hsuf1, List.append_assoc]⟩,
      le_trans hle1 hle2, by simpa using hlen, ?_, hitems2.trans hitems1⟩
    rw [List.map_cons, hmap, List.map_cons]
    congr 1
    rw [tagNameOf, hfind2]
    simp [hname]

theorem flatMap_rep_length_eq_filter (db : DataStore) (t : String) :
    ∀ (l : List DataItem), (∀ it ∈ l, (it.tagIds.filter (assocMatches db t)).length ≤ 1) →
      (l.flatMap (fun it => ((it.tagIds.filter (assocMatches db t)).map (fun _ => it)))).length =
      (l.filter (fun it => it.tagIds.any (assocMatches db t))).length := by
  intro l
  induction l with
  | nil => intro _; rfl
  | cons a l ih =>
    intro h
    have ha := h a (by simp)
    have hl : ∀ it ∈ l, (it.tagIds.filter (assocMatches db t)).length ≤ 1 :=
      fun it hit => h it (by simp [hit])
    rw [List.flatMap_cons, List.length_append, ih hl, List.filter_cons]
    by_cases hany : a.tagIds.any (assocMatches db t)
    · have hpos : 0 < (a.tagIds.filter (assocMatches db t)).length := by
        obtain ⟨x, hx, hpx⟩ := List.any_eq_true.mp hany
        exact List.length_pos.mpr (List.ne_nil_of_mem (List.mem_filter.mpr ⟨hx, hpx⟩))
      have h1 : (a.tagIds.filter (assocMatches db t)).length = 1 := by omega
      simp [hany, h1]
      omega
    · have hnil : a.tagIds.filter (assocMatches db t) = [] := by
        rw [List.filter_eq_nil_iff]
        intro x hx
        have := List.any_eq_false.mp (Bool.eq_false_iff.mpr hany)
        exact fun hpx => (by simpa [hpx] using this x hx)
      simp [hany, hnil]

/-! ## C9 — tag identity -/

/-- C9: `get_or_create_tag` called twice with the same name returns the same
tag both times (the second call creates nothing and leaves the store
unchanged); called with two distinct names it returns tags with distinct
identities. -/
theorem get_or_create_tag_identity (db : DataStore) (hwf : TagStoreWF db)
    (n1 n2 : String) (hne : n1 ≠ n2) :
    get_or_create_tag (get_or_create_tag db n1).2 n1 = get_or_create_tag db n1 ∧
    (get_or_create_tag (get_or_create_tag db n1).2 n2).1.id ≠
      (get_or_create_tag db n1).1.id := by
  obtain ⟨hname, hmem, hwf1, ⟨suf, hsuf⟩, hle, hid, -⟩ := get_or_create_tag_facts db n1 hwf
  set g := get_or_create_tag db n1 with hg
  constructor
  · cases hf : get_tag_by_name db n1 with
    | some t =>
      have hgt : g = (t, db) := by rw [hg]; simp [get_or_create_tag, hf]
      rw [hgt]
      simp [get_or_create_tag, hf]
    | none =>
      have hgt : g = (⟨db.nextTagId, n1⟩,
          { db with tags := db.tags ++ [⟨db.nextTagId, n1⟩], nextTagId := db.nextTagId + 1 }) := by
        rw [hg]
        simp [get_or_create_tag, hf, create_tag]
      have h2 : get_tag_by_name
          ({ db with tags := db.tags ++ [⟨db.nextTagId, n1⟩], nextTagId := db.nextTagId + 1 }
            : DataStore) n1 = some (⟨db.nextTagId, n1⟩ : Tag) := by
        show ((db.tags ++ [(⟨db.nextTagId, n1⟩ : Tag)]).find? (fun t : Tag => t.name == n1)) =
          some (⟨db.nextTagId, n1⟩ : Tag)
        rw [List.find?_append]
        have hf' : db.tags.find? (fun t => t.name == n1) = none := hf
        rw [hf']
        simp
      rw [hgt]
      simp [get_or_create_tag, h2]
  · cases hf2 : get_tag_by_name g.2 n2 with
    | some t2 =>
      have ht2mem := List.mem_of_find?_eq_some hf2
      have ht2name : t2.name = n2 := by simpa [beq_iff_eq] using List.find?_some hf2
      have h21 : (get_or_create_tag g.2 n2).1 = t2 := by
        simp [get_or_create_tag, hf2]
      rw [h21]
      intro hidEq
      have ht2g : t2 = g.1 := List.inj_on_of_nodup_map hwf1.2 ht2mem hmem hidEq
      exact hne (by rw [← hname, ← ht2g, ht2name])
    | none =>
      have h21 : (get_or_create_tag g.2 n2).1 = ⟨g.2.nextTagId, n2⟩ := by
        simp [get_or_create_tag, hf2, create_tag]
      rw [h21]
      show g.2.nextTagId ≠ g.1.id
      omega

/-- Concrete instantiation of `get_or_create_tag_identity` on the empty store
with names `alpha` and `beta`. -/
theorem get_or_create_tag_identity_witness :
    (TagStoreWF emptyDataStore ∧ ("alpha" : String) ≠ "beta") ∧
    (get_or_create_tag (get_or_create_tag emptyDataStore "alpha").2 "alpha" =
        get_or_create_tag emptyDataStore "alpha" ∧
      (get_or_create_tag (get_or_create_tag emptyDataStore "alpha").2 "beta").1.id ≠
        (get_or_create_tag emptyDataStore "alpha").1.id) :=
  ⟨⟨by decide, by decide⟩,
    get_or_create_tag_identity emptyDataStore (by decide) "alpha" "beta" (by decide)⟩

/-! ## C4 — tag associations on creation -/

/-- C4 counterexample: creating an item with the duplicate tag list
`["dup", "dup"]` from the empty store yields TWO association rows to the
single tag (id 0), not one — duplicates do not collapse. -/
theorem create_data_item_dup_tags_counterexample :
    (create_data_item emptyDataStore dupTagPayload).1.tagIds = [0, 0] ∧
    (create_data_item emptyDataStore dupTagPayload).1.tagIds.count 0 = 2 ∧
    ¬ (create_data_item emptyDataStore dupTagPayload).1.tagIds.Nodup ∧
    (create_data_item emptyDataStore dupTagPayload).2.tags = [⟨0, "dup"⟩] := by decide

/-- C4 (amended): `create_data_item` associates one tag per OCCURRENCE in the
tag-name list — duplicates give duplicate associations rather than collapsing
— with each association resolving to the tag of the corresponding name, and
an empty tag list yields an item with no associations. -/
theorem create_data_item_tags (db : DataStore) (p : DynamicDataCreate)
    (hwf : TagStoreWF db) :
    (create_data_item db p).1.tagIds.length = p.tags.length ∧
    (create_data_item db p).1.tagIds.map (tagNameOf (create_data_item db p).2) =
      p.tags.map some ∧
    (p.tags = [] → (create_data_item db p).1.tagIds = []) := by
  obtain ⟨hwf2, hsuf, hle, hlen, hmap, -⟩ := resolveTags_facts p.tags db hwf
  have h1 : (create_data_item db p).1.tagIds = (resolveTags db p.tags).1 := rfl
  have h2 : tagNameOf (create_data_item db p).2 = tagNameOf (resolveTags db p.tags).2 := rfl
  refine ⟨by rw [h1]; exact hlen, by rw [h1, h2]; exact hmap, ?_⟩
  intro h0
  rw [h1, h0]
  rfl

/-- Concrete instantiation of `create_data_item_tags` on the duplicate-name
payload. -/
theorem create_data_item_tags_witness :
    TagStoreWF emptyDataStore ∧
    ((create_data_item emptyDataStore dupTagPayload).1.tagIds.length =
        dupTagPayload.tags.length ∧
      (create_data_item emptyDataStore dupTagPayload).1.tagIds.map
          (tagNameOf (create_data_item emptyDataStore dupTagPayload).2) =
        dupTagPayload.tags.map some ∧
      (dupTagPayload.tags = [] →
        (create_data_item emptyDataStore dupTagPayload).1.tagIds = [])) :=
  ⟨by decide, create_data_item_tags emptyDataStore dupTagPayload (by decide)⟩

/-! ## C5 — pagination arithmetic and totals -/

/-- C5 (amended): for both list endpoints, when limit > 0 the page is
`skip / limit + 1` and `total_pages` is the least page count covering `total`
(the ceiling of total / limit); when limit = 0 both are 1.  `total` is always
the number of result rows of the filter, computed before skip/limit: the
number of matching items for `search_data_items` and for unfiltered
`get_data_items`, but for a tag filter the number of matching
(item, association) join rows — equal to the number of matching items only
when no item carries more than one matching association. -/
theorem pagination_spec (db : DataStore) (skip limit : Nat) (tag : Option String) (q : String) :
    (limit ≠ 0 →
      (get_data_items db skip limit tag).page = skip / limit + 1 ∧
      (search_data_items db q skip limit).page = skip / limit + 1 ∧
      ceilBound (get_data_items db skip limit tag).total_pages
        (get_data_items db skip limit tag).total limit ∧
      ceilBound (search_data_items db q skip limit).total_pages
        (search_data_items db q skip limit).total limit) ∧
    (limit = 0 →
      (get_data_items db skip limit tag).page = 1 ∧
      (search_data_items db q skip limit).page = 1 ∧
      (get_data_items db skip limit tag).total_pages = 1 ∧
      (search_data_items db q skip limit).total_pages = 1) ∧
    (search_data_items db q skip limit).total = (db.items.filter (searchMatch q)).length ∧
    (tag = none → (get_data_items db skip limit tag).total = db.items.length) ∧
    (∀ t, tag = some t → t ≠ "" →
      (get_data_items db skip limit tag).total = (tagFilterRows db t).length ∧
      ((∀ it ∈ db.items, (it.tagIds.filter (assocMatches db t)).length ≤ 1) →
        (get_data_items db skip limit tag).total = matchingItemCount db t)) := by
  refine ⟨?_, ?_, rfl, ?_, ?_⟩
  · intro hlim
    have hpg : (get_data_items db skip limit tag).page = skip / limit + 1 := by
      simp [get_data_items, hlim]
    have hps : (search_data_items db q skip limit).page = skip / limit + 1 := by
      simp [search_data_items, hlim]
    have htg : (get_data_items db skip limit tag).total_pages =
        ((get_data_items db skip limit tag).total + limit - 1) / limit := by
      simp [get_data_items, hlim]
    have hts : (search_data_items db q skip limit).total_pages =
        ((search_data_items db q skip limit).total + limit - 1) / limit := by
      simp [search_data_items, hlim]
    exact ⟨hpg, hps, htg ▸ ceilBound_formula _ limit hlim, hts ▸ ceilBound_formula _ limit hlim⟩
  · intro hlim
    subst hlim
    exact ⟨by simp [get_data_items], by simp [search_data_items],
      by simp [get_data_items], by simp [search_data_items]⟩
  · rintro rfl
    rfl
  · rintro t rfl ht
    constructor
    · simp [get_data_items, ht]
    · intro hdup
      have h1 : (get_data_items db skip limit (some t)).total = (tagFilterRows db t).length := by
        simp [get_data_items, ht]
      rw [h1, tagFilterRows, flatMap_rep_length_eq_filter db t db.items hdup]
      rfl

/-- C5 counterexample: an item created with the duplicate tag list
`["dup", "dup"]` yields two matching join rows under the tag filter, so
`total` is 2 while only one stored item matches the filter. -/
theorem get_data_items_total_counterexample :
    (get_data_items dupTagStore 0 100 (some "dup")).total = 2 ∧
    matchingItemCount dupTagStore "dup" = 1 := by decide

/-- Concrete instantiation of `pagination_spec` on the duplicate-association
store with limit 100. -/
theorem pagination_spec_witness :
    ((100 : Nat) ≠ 0) ∧
    ((get_data_items dupTagStore 0 100 (some "dup")).page = 0 / 100 + 1 ∧
      (search_data_items dupTagStore "dup" 0 100).page = 0 / 100 + 1 ∧
      ceilBound (get_data_items dupTagStore 0 100 (some "dup")).total_pages
        (get_data_items dupTagStore 0 100 (some "dup")).total 100 ∧
      ceilBound (search_data_items dupTagStore "dup" 0 100).total_pages
        (search_data_items dupTagStore "dup" 0 100).total 100) :=
  ⟨by decide, (pagination_spec dupTagStore 0 100 (some "dup") "dup").1 (by decide)⟩

/-! ## C6 — search matching -/

/-- C6 (amended): for query strings free of the SQL LIKE wildcard characters
`%` and `_`, the filter of `search_data_items` matches an item exactly when
the lowercased query occurs as a substring of the lowercased title or of the
lowercased description; an item whose description is NULL can only match via
its title; and `total` counts exactly the matching items. -/
theorem search_match_iff (db : DataStore) (q : String)
    (hq : ∀ c ∈ q.data, c ≠ '%' ∧ c ≠ '_') (it : DataItem) :
    (searchMatch q it = true ↔
      (∃ l r, lowerL it.title.data = l ++ lowerL q.data ++ r) ∨
      (∃ d, it.description = some d ∧
        ∃ l r, lowerL d.data = l ++ lowerL q.data ++ r)) ∧
    (it.description = none →
      (searchMatch q it = true ↔
        ∃ l r, lowerL it.title.data = l ++ lowerL q.data ++ r)) ∧
    (∀ skip limit, (search_data_items db q skip limit).total =
      (db.items.filter (searchMatch q)).length) := by
  have hql := lowerL_not_wild hq
  have hlike : ∀ s : List Char,
      (likeMatch (lowerL ('%' :: (q.data ++ ['%']))) (lowerL s) = true ↔
        ∃ l r, lowerL s = l ++ lowerL q.data ++ r) := by
    intro s
    rw [lowerL_pat]
    exact likeMatch_substr (lowerL q.data) (lowerL s) hql
  have hM : searchMatch q it =
      (likeMatch (lowerL ('%' :: (q.data ++ ['%']))) (lowerL it.title.data) ||
        (match it.description with
         | some d => likeMatch (lowerL ('%' :: (q.data ++ ['%']))) (lowerL d.data)
         | none => false)) := rfl
  refine ⟨?_, ?_, fun _ _ => rfl⟩
  · rw [hM, Bool.or_eq_true]
    cases hd : it.description with
    | none => simp [hlike]
    | some d => simp [hlike]
  · intro hd
    rw [hM, hd, Bool.or_eq_true]
    simp [hlike]

/-- C6 counterexample: the query `a%z` is not a substring of the stored title
`abz` (case-insensitively or otherwise), yet the search filter matches the
item, because `%` acts as a LIKE wildcard. -/
theorem search_wildcard_counterexample :
    searchMatch "a%z" wildcardItem = true ∧
    (search_data_items wildcardStore "a%z" 0 100).total = 1 ∧
    wildcardItem.title = "abz" ∧ wildcardItem.description = none ∧
    ¬ (∃ l r, lowerL "abz".data = l ++ lowerL "a%z".data ++ r) := by
  have hm : searchMatch "a%z" wildcardItem = true := by
    have h : searchMatch "a%z" wildcardItem =
        likeMatch (lowerL ('%' :: ("a%z".data ++ ['%']))) (lowerL "abz".data) := by
      simp [searchMatch, wildcardItem]
    rw [h]
    have h2 : lowerL ('%' :: ("a%z".data ++ ['%'])) = ['%', 'a', '%', 'z', '%'] := by decide
    have h3 : lowerL "abz".data = ['a', 'b', 'z'] := by decide
    rw [h2, h3]
    simp +decide [likeMatch]
  refine ⟨hm, ?_, rfl, rfl, ?_⟩
  · show (wildcardStore.items.filter (searchMatch "a%z")).length = 1
    simp [wildcardStore, List.filter, hm]
  · rintro ⟨l, r, h⟩
    have hsub : isSubstr (lowerL "a%z".data) (lowerL "abz".data) = true :=
      (isSubstr_iff _ _).mpr ⟨l, r, h⟩
    exact absurd hsub (by decide)

/-- Concrete instantiation of `search_match_iff` with the wildcard-free query
`se` against the stored item titled `abz`. -/
theorem search_match_iff_witness :
    (∀ c ∈ ("se" : String).data, c ≠ '%' ∧ c ≠ '_') ∧
    ((searchMatch "se" wildcardItem = true ↔
        (∃ l r, lowerL wildcardItem.title.data = l ++ lowerL ("se" : String).data ++ r) ∨
        (∃ d, wildcardItem.description = some d ∧
          ∃ l r, lowerL d.data = l ++ lowerL ("se" : String).data ++ r)) ∧
      (wildcardItem.description = none →
        (searchMatch "se" wildcardItem = true ↔
          ∃ l r, lowerL wildcardItem.title.data = l ++ lowerL ("se" : String).data ++ r)) ∧
      (∀ skip limit, (search_data_items wildcardStore "se" skip limit).total =
        (wildcardStore.items.filter (searchMatch "se")).length)) :=
  ⟨by decide, search_match_iff wildcardStore "se" (by decide) wildcardItem⟩

/-! ## C7 — partial update frame conditions -/

theorem updateFirst_split {α : Type} (p : α → Bool) (f : α → α) {pre post : List α} {x : α}
    (hpre : ∀ y ∈ pre, p y = false) (hx : p x = true) :
    updateFirst p f (pre ++ x :: post) = pre ++ f x :: post := by
  induction pre with
  | nil => simp [updateFirst, hx]
  | cons a l ih =>
    have ha := hpre a (by simp)
    simp only [List.cons_append, updateFirst, ha, Bool.false_eq_true, if_false,
      List.cons.injEq, true_and]
    exact ih (fun y hy => hpre y (by simp [hy]))

/-- C7: `update_data_item` changes exactly the fields present in the partial
update: title, description and content absent from the payload keep their
prior values; an absent `tags` leaves both the item's association list and
the tag table untouched; a present `tags` replaces the association list by
one association per given name (old tags staying in the tag table, which only
grows); and the only changed row of the item table is the target. -/
theorem applyBasicFields_id (it : DataItem) (u : DynamicDataUpdate) :
    (applyBasicFields it u).id = it.id := by
  rcases u with ⟨ut, ud, uc, ug⟩
  cases ut <;> cases ud <;> cases uc <;> rfl

theorem applyBasicFields_tagIds (it : DataItem) (u : DynamicDataUpdate) :
    (applyBasicFields it u).tagIds = it.tagIds := by
  rcases u with ⟨ut, ud, uc, ug⟩
  cases ut <;> cases ud <;> cases uc <;> rfl

theorem applyBasicFields_title (it : DataItem) (u : DynamicDataUpdate)
    (h : u.title = .unset) : (applyBasicFields it u).title = it.title := by
  rcases u with ⟨ut, ud, uc, ug⟩
  subst h
  cases ud <;> cases uc <;> rfl

theorem applyBasicFields_description (it : DataItem) (u : DynamicDataUpdate)
    (h : u.description = .unset) : (applyBasicFields it u).description = it.description := by
  rcases u with ⟨ut, ud, uc, ug⟩
  subst h
  cases ut <;> cases uc <;> rfl

theorem applyBasicFields_content (it : DataItem) (u : DynamicDataUpdate)
    (h : u.content = .unset) : (applyBasicFields it u).content = it.content := by
  rcases u with ⟨ut, ud, uc, ug⟩
  subst h
  cases ut <;> cases ud <;> rfl

/-- C7: `update_data_item` changes exactly the fields present in the partial
update: title, description and content absent from the payload keep their
prior values; an absent `tags` leaves both the item's association list and
the tag table untouched; a present `tags` replaces the association list by
one association per given name (old tags staying in the tag table, which only
grows); and the only changed row of the item table is the target. -/
theorem update_data_item_frame (db : DataStore) (dataId : Nat) (u : DynamicDataUpdate)
    (it : DataItem) (hit : get_data_item db dataId = some it) (hwf : TagStoreWF db) :
    ∃ it2, (update_data_item db dataId u).1 = some it2 ∧
      it2.id = it.id ∧
      (u.title = .unset → it2.title = it.title) ∧
      (u.description = .unset → it2.description = it.description) ∧
      (u.content = .unset → it2.content = it.content) ∧
      (u.tags = .unset → it2.tagIds = it.tagIds ∧
        (update_data_item db dataId u).2.tags = db.tags) ∧
      (∀ names, u.tags = .given names →
        it2.tagIds.length = names.length ∧
        it2.tagIds.map (tagNameOf (update_data_item db dataId u).2) = names.map some ∧
        (∃ suf, (update_data_item db dataId u).2.tags = db.tags ++ suf)) ∧
      (∃ pre post, db.items = pre ++ it :: post ∧
        (update_data_item db dataId u).2.items = pre ++ it2 :: post ∧
        ∀ y ∈ pre, (y.id == dataId) = false) := by
  have hit2 : db.items.find? (fun x => x.id == dataId) = some it := hit
  have hp : (it.id == dataId) = true :=
    @List.find?_some DataItem (fun x => x.id == dataId) it db.items hit2
  obtain ⟨-, pre, post, hsplit, hallBang⟩ := List.find?_eq_some.mp hit2
  have hpre : ∀ y ∈ pre, (y.id == dataId) = false := by
    intro y hy
    simpa using hallBang y hy
  cases htg : u.tags with
  | unset =>
    have hred : update_data_item db dataId u =
        (some (applyBasicFields it u),
         { db with items := (updateFirst (fun x => x.id == dataId)
            (fun _ => applyBasicFields it u) db.items) }) := by
      simp only [update_data_item, hit, htg, applyBasicFields]
    refine ⟨applyBasicFields it u, by rw [hred], applyBasicFields_id it u,
      fun h => applyBasicFields_title it u h,
      fun h => applyBasicFields_description it u h,
      fun h => applyBasicFields_content it u h,
      fun _ => ⟨applyBasicFields_tagIds it u, by rw [hred]⟩,
      fun names h => PatchField.noConfusion h,
      pre, post, hsplit, ?_, hpre⟩
    rw [hred, hsplit, updateFirst_split _ _ hpre hp]
  | given nm =>
    rcases hres : resolveTags db nm with ⟨ids, db1⟩
    obtain ⟨hwf2, ⟨suf, hsuf⟩, hle, hlen, hmap, hitems⟩ := resolveTags_facts nm db hwf
    rw [hres] at hsuf hlen hmap hitems
    have hitems1 : db1.items = db.items := hitems
    have hsuf1 : db1.tags = db.tags ++ suf := hsuf
    have hlen1 : ids.length = nm.length := hlen
    have hmap1 : ids.map (tagNameOf db1) = nm.map some := hmap
    have hred : update_data_item db dataId u =
        (some { applyBasicFields it u with tagIds := ids },
         { db1 with items := (updateFirst (fun x => x.id == dataId)
            (fun _ => { applyBasicFields it u with tagIds := ids }) db1.items) }) := by
      simp only [update_data_item, hit, htg, hres, applyBasicFields]
    refine ⟨{ applyBasicFields it u with tagIds := ids }, by rw [hred],
      applyBasicFields_id it u,
      fun h => applyBasicFields_title it u h,
      fun h => applyBasicFields_description it u h,
      fun h => applyBasicFields_content it u h,
      fun h => PatchField.noConfusion h,
      ?_, pre, post, hsplit, ?_, hpre⟩
    · intro names h
      injection h with hn
      subst hn
      refine ⟨hlen1, ?_, suf, ?_⟩
      · rw [hred]
        exact hmap1
      · rw [hred]
        exact hsuf1
    · rw [hred, show db1.items = db.items from hitems1, hsplit,
        updateFirst_split _ _ hpre hp]

/-- Concrete instantiation of `update_data_item_frame`: the stored item gets a
new title and the replacement tag list, its description stays, and the old
tag survives in the tag table. -/
theorem update_data_item_frame_witness :
    (get_data_item exampleDataStore 0 = some exampleItem ∧ TagStoreWF exampleDataStore) ∧
    (∃ it2, (update_data_item exampleDataStore 0 exampleUpd).1 = some it2 ∧
      it2.id = exampleItem.id ∧
      (exampleUpd.title = .unset → it2.title = exampleItem.title) ∧
      (exampleUpd.description = .unset → it2.description = exampleItem.description) ∧
      (exampleUpd.content = .unset → it2.content = exampleItem.content) ∧
      (exampleUpd.tags = .unset → it2.tagIds = exampleItem.tagIds ∧
        (update_data_item exampleDataStore 0 exampleUpd).2.tags = exampleDataStore.tags) ∧
      (∀ names, exampleUpd.tags = .given names →
        it2.tagIds.length = names.length ∧
        it2.tagIds.map (tagNameOf (update_data_item exampleDataStore 0 exampleUpd).2) =
          names.map some ∧
        (∃ suf, (update_data_item exampleDataStore 0 exampleUpd).2.tags =
          exampleDataStore.tags ++ suf)) ∧
      (∃ pre post, exampleDataStore.items = pre ++ exampleItem :: post ∧
        (update_data_item exampleDataStore 0 exampleUpd).2.items = pre ++ it2 :: post ∧
        ∀ y ∈ pre, (y.id == 0) = false)) :=
  ⟨⟨by decide, by decide⟩,
    update_data_item_frame exampleDataStore 0 exampleUpd exampleItem (by decide) (by decide)⟩

/-! ## Design-registry helper lemmas -/

theorem applyDesignUpdate_active (r0 : DesignSystem) (u : DesignSystemUpdate) :
    (applyDesignUpdate r0 u).is_active = r0.is_active := by
  rw [applyDesignUpdate]
  cases u.name <;> dsimp only <;> split <;> rfl

theorem applyDesignUpdate_config (r0 : DesignSystem) (u : DesignSystemUpdate) :
    (applyDesignUpdate r0 u).config =
      if sectionGiven u then applySections r0.config u else r0.config := by
  rw [applyDesignUpdate]
  cases u.name <;> dsimp only <;> split <;> rfl

theorem find_deactivate (db : DStore) (i : Nat) :
    (db.rows.map DesignSystem.deactivate).find? (fun x => x.id == i) =
      (db.rows.find? (fun x => x.id == i)).map DesignSystem.deactivate := by
  rw [List.find?_map]
  rfl

theorem setActive_not_found (db : DStore) (i : Nat)
    (h : (db.rows.map DesignSystem.deactivate).find? (fun x => x.id == i) = none) :
    set_active_request db i = (none, db) := by
  simp only [set_active_request, set_active_design_system, h, closeSess]

theorem setActive_found (db : DStore) (i : Nat) (r : DesignSystem)
    (h : (db.rows.map DesignSystem.deactivate).find? (fun x => x.id == i) = some r) :
    (set_active_request db i).1 = some { r with is_active := true } ∧
    activeRows (set_active_request db i).2 = [{ r with is_active := true }] ∧
    (set_active_request db i).2.rows = (updateFirst (fun x : DesignSystem => x.id == i)
      (fun x : DesignSystem => { x with is_active := true })
      (db.rows.map DesignSystem.deactivate)) ∧
    (set_active_request db i).2.nextId = db.nextId := by
  have h1 : (set_active_request db i).1 = some { r with is_active := true } := by
    simp only [set_active_request, set_active_design_system, h, closeSess, commitSess]
  have h2 : (set_active_request db i).2.rows = (updateFirst (fun x : DesignSystem => x.id == i)
      (fun x : DesignSystem => { x with is_active := true })
      (db.rows.map DesignSystem.deactivate)) := by
    simp only [set_active_request, set_active_design_system, h, closeSess, commitSess]
  have h4 : (set_active_request db i).2.nextId = db.nextId := by
    simp only [set_active_request, set_active_design_system, h, closeSess, commitSess]
  refine ⟨h1, ?_, h2, h4⟩
  obtain ⟨pre, post, hsplit, hupd, hpre⟩ :=
    updateFirst_decomp (fun x : DesignSystem => x.id == i)
      (fun x : DesignSystem => { x with is_active := true }) h
  have hinact : ∀ x ∈ db.rows.map DesignSystem.deactivate, x.is_active = false := by
    intro x hx
    obtain ⟨y, hy, rfl⟩ := List.mem_map.mp hx
    rfl
  have hfa : pre.filter (fun x => x.is_active) = [] :=
    List.filter_eq_nil_iff.mpr (fun x hx => by
      simp [hinact x (hsplit ▸ List.mem_append_left _ hx)])
  have hfb : post.filter (fun x => x.is_active) = [] :=
    List.filter_eq_nil_iff.mpr (fun x hx => by
      simp [hinact x (hsplit ▸ List.mem_append_right _ (List.mem_cons_of_mem _ hx))])
  rw [activeRows, h2, hupd, List.filter_append, hfa, List.filter_cons]
  simp [hfb]

/-! ## C2 — set_active -/

/-- C2: when the target id exists, `set_active` leaves exactly one active
design system, namely the target; when it does not exist, the request's
uncommitted mass-deactivation is rolled back at session close, so the
database is returned unchanged and the previously active theme (if any)
remains active. -/
theorem set_active_design_system_spec (db : DStore) (designId : Nat) :
    (∀ r0, get_design_system db designId = some r0 →
      (set_active_request db designId).1 = some { r0 with is_active := true } ∧
      activeRows (set_active_request db designId).2 = [{ r0 with is_active := true }] ∧
      r0.id = designId) ∧
    (get_design_system db designId = none →
      set_active_request db designId = (none, db)) := by
  constructor
  · intro r0 h0
    have h0' : db.rows.find? (fun x => x.id == designId) = some r0 := h0
    have hfd : (db.rows.map DesignSystem.deactivate).find? (fun x => x.id == designId) =
        some (DesignSystem.deactivate r0) := by
      rw [find_deactivate, h0']
      rfl
    obtain ⟨h1, h2, -, -⟩ := setActive_found db designId (DesignSystem.deactivate r0) hfd
    have hid : (r0.id == designId) = true :=
      @List.find?_some DesignSystem (fun x => x.id == designId) r0 db.rows h0
    exact ⟨h1, h2, by simpa using hid⟩
  · intro h0
    have h0' : db.rows.find? (fun x => x.id == designId) = none := h0
    apply setActive_not_found
    rw [find_deactivate, h0']
    rfl

/-- Concrete instantiation of `set_active_design_system_spec`: activate the
inactive second theme of `storeOneActive`. -/
theorem set_active_design_system_spec_witness :
    (get_design_system storeOneActive 1 = some sampleRowBInactive) ∧
    ((set_active_request storeOneActive 1).1 =
        some { sampleRowBInactive with is_active := true } ∧
      activeRows (set_active_request storeOneActive 1).2 =
        [{ sampleRowBInactive with is_active := true }] ∧
      sampleRowBInactive.id = 1) :=
  ⟨by decide,
    (set_active_design_system_spec storeOneActive 1).1 sampleRowBInactive (by decide)⟩

/-! ## C8 — deletion guard -/

/-- C8: `delete_design_system` returns false and leaves the store completely
unchanged both when the id does not exist and when the target is the active
design system; for an existing inactive design system it returns true and
removes exactly that row. -/
theorem delete_design_system_spec (db : DStore) (designId : Nat) :
    (get_design_system db designId = none →
      delete_design_system db designId = (false, db)) ∧
    (∀ r, get_design_system db designId = some r → r.is_active = true →
      delete_design_system db designId = (false, db)) ∧
    (∀ r, get_design_system db designId = some r → r.is_active = false →
      (delete_design_system db designId).1 = true ∧
      (delete_design_system db designId).2.nextId = db.nextId ∧
      ∃ pre post, db.rows = pre ++ r :: post ∧
        (delete_design_system db designId).2.rows = pre ++ post ∧
        ∀ y ∈ pre, (y.id == designId) = false) := by
  refine ⟨?_, ?_, ?_⟩
  · intro h
    simp [delete_design_system, h]
  · intro r h ha
    simp [delete_design_system, h, ha]
  · intro r h ha
    have hred : delete_design_system db designId =
        (true, { db with rows := db.rows.eraseP (fun x => x.id == designId) }) := by
      simp [delete_design_system, h, ha]
    have h' : db.rows.find? (fun x => x.id == designId) = some r := h
    have hbp : (r.id == designId) = true :=
      @List.find?_some DesignSystem (fun x => x.id == designId) r db.rows h'
    obtain ⟨-, pre, post, hsplit, hall⟩ := List.find?_eq_some.mp h'
    have hpre : ∀ y ∈ pre, (y.id == designId) = false := by
      intro y hy
      simpa using hall y hy
    refine ⟨by rw [hred], by rw [hred], pre, post, hsplit, ?_, hpre⟩
    rw [hred]
    show db.rows.eraseP (fun x => x.id == designId) = pre ++ post
    have he : List.eraseP (fun x : DesignSystem => x.id == designId) (r :: post) = post :=
      @List.eraseP_cons_of_pos DesignSystem r post (fun x => x.id == designId) hbp
    rw [hsplit, List.eraseP_append_right _ (fun b hb => by simp [hpre b hb]), he]

/-- Concrete instantiation of `delete_design_system_spec`: deleting the
inactive second theme of `storeOneActive` succeeds and removes only it. -/
theorem delete_design_system_spec_witness :
    (get_design_system storeOneActive 1 = some sampleRowBInactive ∧
      sampleRowBInactive.is_active = false) ∧
    ((delete_design_system storeOneActive 1).1 = true ∧
      (delete_design_system storeOneActive 1).2.nextId = storeOneActive.nextId ∧
      ∃ pre post, storeOneActive.rows = pre ++ sampleRowBInactive :: post ∧
        (delete_design_system storeOneActive 1).2.rows = pre ++ post ∧
        ∀ y ∈ pre, (y.id == 1) = false) :=
  ⟨⟨by decide, by decide⟩,
    (delete_design_system_spec storeOneActive 1).2.2 sampleRowBInactive
      (by decide) (by decide)⟩

/-! ## C3 — color-scheme update endpoint -/

/-- C3 (code bug): on a store whose active design system has the default
colors, `PUT /color-scheme` with different colors returns the OLD colors and
leaves the store unchanged — the handler passes the rebuilt config as a
`config` keyword that `DesignSystemUpdate` does not declare, pydantic drops
it, and the resulting update is empty.  (The fallback half of the endpoint
pair behaves as specified: with no active theme, `GET /color-scheme` returns
the static default.) -/
theorem update_color_scheme_noop :
    altColors ≠ DEFAULT_COLORS ∧
    get_active_design_system storeOneTheme = some sampleRowA ∧
    update_color_scheme storeOneTheme altColors =
      (some (some (.colors DEFAULT_COLORS)), storeOneTheme) ∧
    get_color_scheme emptyDStore = some (.colors DEFAULT_COLORS) := by decide

/-! ## C1 — single-active invariant -/

/-- C1 counterexample: creating a design system while another is active does
NOT preserve the at-most-one-active invariant — the new row's `is_active`
column defaults to true, so two bare creations from the empty store leave two
active design systems. -/
theorem create_design_system_counterexample :
    countActive storeOneTheme = 1 ∧
    storeTwoCreates = runDOps storeOneTheme [.createOp (samplePayload "Theme B" altColors)] ∧
    countActive storeTwoCreates = 2 ∧
    ¬ atMostOneActive storeTwoCreates := by decide

/-- C1 (amended): every registry operation except `create_design_system`
preserves the at-most-one-active invariant (update does not touch the flag,
set_active either establishes exactly one active row or rolls back, delete
only removes a row); `create_design_system` itself breaks it because the new
row is stored active by column default. -/
theorem non_create_preserves_single_active (db : DStore) (op : DOp)
    (hop : op.isCreate = false) (h : atMostOneActive db) :
    atMostOneActive (applyDOp db op) := by
  have hcount : ∀ (l : List DesignSystem),
      (l.filter (fun r => r.is_active)).length = l.countP (fun r => r.is_active) :=
    fun l => (List.countP_eq_length_filter _ _).symm
  cases op with
  | createOp p => simp [DOp.isCreate] at hop
  | updateOp i u =>
    cases hfind : get_design_system db i with
    | none =>
      simpa only [applyDOp, update_design_system, hfind] using h
    | some r0 =>
      have h' : db.rows.find? (fun x => x.id == i) = some r0 := hfind
      obtain ⟨pre, post, hsplit, hupd, hpre⟩ :=
        updateFirst_decomp (fun x : DesignSystem => x.id == i)
          (fun _ => applyDesignUpdate r0 u) h'
      have hact := applyDesignUpdate_active r0 u
      simp only [applyDOp, update_design_system, hfind]
      rw [atMostOneActive, countActive, activeRows] at h ⊢
      rw [hcount] at h ⊢
      show (updateFirst (fun x : DesignSystem => x.id == i)
        (fun _ => applyDesignUpdate r0 u) db.rows).countP (fun r => r.is_active) ≤ 1
      rw [hupd, List.countP_append, List.countP_cons]
      rw [hsplit, List.countP_append, List.countP_cons] at h
      simp only [hact]
      omega
  | setActiveOp i =>
    cases hfd : (db.rows.map DesignSystem.deactivate).find? (fun x => x.id == i) with
    | none =>
      have hn := setActive_not_found db i hfd
      show atMostOneActive (set_active_request db i).2
      rw [hn]
      exact h
    | some r =>
      obtain ⟨-, h2, -, -⟩ := setActive_found db i r hfd
      show atMostOneActive (set_active_request db i).2
      rw [atMostOneActive, countActive, h2]
      simp
  | deleteOp i =>
    cases hfind : get_design_system db i with
    | none =>
      simpa only [applyDOp, delete_design_system, hfind] using h
    | some r =>
      cases har : r.is_active with
      | true => simpa [applyDOp, delete_design_system, hfind, har] using h
      | false =>
        have hred : applyDOp db (.deleteOp i) =
            { db with rows := db.rows.eraseP (fun x => x.id == i) } := by
          simp [applyDOp, delete_design_system, hfind, har]
        rw [hred, atMostOneActive, countActive, activeRows, hcount]
        rw [atMostOneActive, countActive, activeRows, hcount] at h
        exact le_trans (List.Sublist.countP_le _ (List.eraseP_sublist _)) h

/-- Concrete instantiation of `non_create_preserves_single_active`: deleting
the inactive theme of `storeOneActive` keeps at most one active row. -/
theorem non_create_preserves_single_active_witness :
    ((DOp.deleteOp 1).isCreate = false ∧ atMostOneActive storeOneActive) ∧
    atMostOneActive (applyDOp storeOneActive (DOp.deleteOp 1)) :=
  ⟨⟨by decide, by decide⟩,
    non_create_preserves_single_active storeOneActive (.deleteOp 1) (by decide) (by decide)⟩

/-! ## C10 — config key-set invariant -/

theorem assocSet_keys (cfg : Config) (k : String) (v : SectionVal)
    (hk : k ∈ configKeys cfg) : configKeys (assocSet cfg k v) = configKeys cfg := by
  have hany : cfg.any (fun p => p.1 == k) = true := by
    rw [List.any_eq_true]
    obtain ⟨p, hp, hpk⟩ := List.mem_map.mp hk
    exact ⟨p, hp, by simp [hpk]⟩
  rw [assocSet, if_pos hany, configKeys, configKeys, List.map_map]
  refine List.map_congr_left ?_
  intro p hp
  by_cases hpk : (p.1 == k) = true
  · simp [hpk, (beq_iff_eq.mp hpk).symm]
  · have hne : ¬ p.1 = k := fun he => hpk (by simp [he])
    simp [hne]
  
theorem applySections_keys (cfg : Config) (u : DesignSystemUpdate)
    (h : configKeys cfg = sectionKeys) : configKeys (applySections cfg u) = sectionKeys := by
  have step : ∀ (c : Config) (k : String) (v : SectionVal), configKeys c = sectionKeys →
      k ∈ sectionKeys → configKeys (assocSet c k v) = sectionKeys := by
    intro c k v hc hk
    rw [assocSet_keys c k v (by rw [hc]; exact hk), hc]
  have k1 : ∀ (c : Config), configKeys c = sectionKeys → configKeys
      (match u.colors with | .given v => assocSet c "colors" (.colors v) | .unset => c) =
      sectionKeys := by
    intro c hc
    cases u.colors
    · exact hc
    · exact step c "colors" _ hc (by decide)
  have k2 : ∀ (c : Config), configKeys c = sectionKeys → configKeys
      (match u.dark_mode with
       | .given v => assocSet c "dark_mode" (.dark_mode v) | .unset => c) = sectionKeys := by
    intro c hc
    cases u.dark_mode
    · exact hc
    · exact step c "dark_mode" _ hc (by decide)
  have k3 : ∀ (c : Config), configKeys c = sectionKeys → configKeys
      (match u.typography with
       | .given v => assocSet c "typography" (.typography v) | .unset => c) = sectionKeys := by
    intro c hc
    cases u.typography
    · exact hc
    · exact step c "typography" _ hc (by decide)
  have k4 : ∀ (c : Config), configKeys c = sectionKeys → configKeys
      (match u.spacing with
       | .given v => assocSet c "spacing" (.spacing v) | .unset => c) = sectionKeys := by
    intro c hc
    cases u.spacing
    · exact hc
    · exact step c "spacing" _ hc (by decide)
  have k5 : ∀ (c : Config), configKeys c = sectionKeys → configKeys
      (match u.border_radius with
       | .given v => assocSet c "border_radius" (.border_radius v) | .unset => c) =
      sectionKeys := by
    intro c hc
    cases u.border_radius
    · exact hc
    · exact step c "border_radius" _ hc (by decide)
  exact k5 _ (k4 _ (k3 _ (k2 _ (k1 _ h))))

/-- C10: on every store reachable from the empty store through the registry
operations, each row's config document has exactly the five section keys
colors, dark_mode, typography, spacing, border_radius (in particular, never a
`name` key): creation stores the payload dict minus `name`, and updates only
assign at those five keys. -/
theorem config_keys_invariant (ops : List DOp) :
    ∀ r ∈ (runDOps emptyDStore ops).rows,
      configKeys r.config = sectionKeys ∧ "name" ∉ configKeys r.config := by
  have step : ∀ (db : DStore) (op : DOp),
      (∀ r ∈ db.rows, configKeys r.config = sectionKeys) →
      (∀ r ∈ (applyDOp db op).rows, configKeys r.config = sectionKeys) := by
    intro db op hI
    cases op with
    | createOp p =>
      intro r hr
      simp only [applyDOp, create_design_system] at hr
      rcases List.mem_append.mp hr with hr | hr
      · exact hI r hr
      · simp only [List.mem_singleton] at hr
        subst hr
        rfl
    | updateOp i u =>
      intro r hr
      cases hfind : get_design_system db i with
      | none =>
        simp only [applyDOp, update_design_system, hfind] at hr
        exact hI r hr
      | some r0 =>
        simp only [applyDOp, update_design_system, hfind] at hr
        rcases mem_updateFirst hr with hr | ⟨x, hx, rfl⟩
        · exact hI r hr
        · rw [applyDesignUpdate_config]
          split
          · exact applySections_keys _ _ (hI r0 (List.mem_of_find?_eq_some hfind))
          · exact hI r0 (List.mem_of_find?_eq_some hfind)
    | setActiveOp i =>
      intro r hr
      cases hfd : (db.rows.map DesignSystem.deactivate).find? (fun x => x.id == i) with
      | none =>
        have hn := setActive_not_found db i hfd
        have hr2 : r ∈ (set_active_request db i).2.rows := hr
        rw [hn] at hr2
        exact hI r hr2
      | some r1 =>
        obtain ⟨-, -, h3, -⟩ := setActive_found db i r1 hfd
        have hr2 : r ∈ (set_active_request db i).2.rows := hr
        rw [h3] at hr2
        rcases mem_updateFirst hr2 with hr2 | ⟨x, hx, rfl⟩
        · obtain ⟨y, hy, rfl⟩ := List.mem_map.mp hr2
          exact hI y hy
        · obtain ⟨y, hy, rfl⟩ := List.mem_map.mp hx
          exact hI y hy
    | deleteOp i =>
      intro r hr
      cases hfind : get_design_system db i with
      | none =>
        simp only [applyDOp, delete_design_system, hfind] at hr
        exact hI r hr
      | some r0 =>
        cases har : r0.is_active with
        | true =>
          simp only [applyDOp, delete_design_system, hfind, har, if_true] at hr
          exact hI r hr
        | false =>
          simp only [applyDOp, delete_design_system, hfind, har, Bool.false_eq_true,
            if_false] at hr
          exact hI r ((List.eraseP_sublist _).subset hr)
  have run : ∀ (rest : List DOp) (db : DStore),
      (∀ r ∈ db.rows, configKeys r.config = sectionKeys) →
      ∀ r ∈ (runDOps db rest).rows, configKeys r.config = sectionKeys := by
    intro rest
    induction rest with
    | nil => intro db hdb; exact hdb
    | cons op tl ih => intro db hdb; exact ih (applyDOp db op) (step db op hdb)
  intro r hr
  have hkeys := run ops emptyDStore (by intro r hr; cases hr) r hr
  refine ⟨hkeys, ?_⟩
  rw [hkeys]
  decide

/-- Concrete instantiation of `config_keys_invariant` on a one-creation run. -/
theorem config_keys_invariant_witness :
    (sampleRowA ∈ (runDOps emptyDStore
      [.createOp (samplePayload "Theme A" DEFAULT_COLORS)]).rows) ∧
    (configKeys sampleRowA.config = sectionKeys ∧
      "name" ∉ configKeys sampleRowA.config) :=
  ⟨by decide,
    config_keys_invariant [.createOp (samplePayload "Theme A" DEFAULT_COLORS)]
      sampleRowA (by decide)⟩
